import Mathlib

/-!
Verification of the passSafe-BE vault core (src/src/controllers/password.controller.ts)
against its specification.

The controller operates on credential records stored in a MongoDB collection via
`PasswordModel`.  We embed the store as a list of records plus a fresh-id counter,
and each controller function as a pure function from its request inputs and the
store state to an explicit outcome plus the successor state.  Timestamps are
threaded as an explicit `now : Nat` parameter.
-/

namespace PassSafe

/-- The `username` field stored by `addPassword`: `{ encUsername: username, iv: usernameIv }`. -/
structure EncUsername where
  encUsername : String
  iv : String
deriving DecidableEq, Repr

/-- The `password` field stored by `addPassword`: `{ encPassword: password, iv: passwordIv }`. -/
structure EncPassword where
  encPassword : String
  iv : String
deriving DecidableEq, Repr

/-- A stored credential record. Field names follow the controller and the data model:
`user` is the owning account identifier, `username`/`password` are opaque cipher+iv
pairs, `createdAt`/`updatedAt` are store-maintained timestamps. -/
structure PasswordRecord where
  _id : Nat
  user : Nat
  websiteName : String
  url : String
  username : EncUsername
  password : EncPassword
  passwordStrength : Nat
  createdAt : Nat
  updatedAt : Nat
deriving DecidableEq, Repr

/-- The persistent store backing `PasswordModel`: the stored records in insertion
order plus the next identifier to assign at creation. -/
structure VaultStore where
  records : List PasswordRecord
  nextId : Nat
deriving DecidableEq, Repr

/-- The request body consumed by `addPassword`. -/
structure AddBody where
  websiteName : String
  websiteUrl : String
  username : String
  password : String
  usernameIv : String
  passwordIv : String
  passwordStrength : Nat
deriving DecidableEq, Repr

/-- The duplicate filter used by `addPassword`: `{ user, websiteName, url: websiteUrl }`. -/
def dupFilter (userId : Nat) (b : AddBody) (r : PasswordRecord) : Bool :=
  r.user == userId && r.websiteName == b.websiteName && r.url == b.websiteUrl

/-- The document built from the `addPassword` body at `PasswordModel.create`:
`{ user, websiteName, url: websiteUrl, username: { encUsername, iv },
password: { encPassword, iv }, passwordStrength }`, with the store-assigned
identifier and timestamps. -/
def newRecord (userId : Nat) (b : AddBody) (now : Nat) (id : Nat) : PasswordRecord :=
  { _id := id
    user := userId
    websiteName := b.websiteName
    url := b.websiteUrl
    username := { encUsername := b.username, iv := b.usernameIv }
    password := { encPassword := b.password, iv := b.passwordIv }
    passwordStrength := b.passwordStrength
    createdAt := now
    updatedAt := now }

/-- Modelled from the spec: `PasswordModel` (src/models/password.model.ts) is not
part of the analysed sources; per section 4.1 the store `insert` assigns `id`,
`createdAt`, `updatedAt` and fails with `DuplicateEntry` if the
`(ownerId, websiteName, url)` uniqueness invariant would be violated, the
guarantee being atomic at the store. -/
def PasswordModel_create (userId : Nat) (b : AddBody) (now : Nat) (st : VaultStore) :
    Except String (PasswordRecord × VaultStore) :=
  if st.records.any (dupFilter userId b) then
    .error "DuplicateEntry"
  else
    .ok (newRecord userId b now st.nextId,
      { records := st.records ++ [newRecord userId b now st.nextId], nextId := st.nextId + 1 })

/-- Outcome of `addPassword`: 400 conflict, 201 created, or the catch-all
`next(new ErrorHandler(error.message, 500))`. -/
inductive AddResult where
  | conflict
  | created
  | internalFailure (msg : String)
deriving DecidableEq, Repr

/-- `addPassword`: checks for an existing record with the same
`(user, websiteName, url)` via `findOne`; on a hit answers 400 with no mutation,
otherwise creates the record. A store-level failure is caught and mapped to 500. -/
def addPassword (userId : Nat) (b : AddBody) (now : Nat) (st : VaultStore) :
    AddResult × VaultStore :=
  match st.records.find? (dupFilter userId b) with
  | some _ => (.conflict, st)
  | none =>
    match PasswordModel_create userId b now st with
    | .error msg => (.internalFailure msg, st)
    | .ok (_, st') => (.created, st')

/-- Outcome of `getSinglePassword`. -/
inductive GetOneResult where
  | notFound
  | ok (data : PasswordRecord)
deriving DecidableEq, Repr

/-- `getSinglePassword`: `findOne({ _id: id, user: userId })`; 404 when absent. -/
def getSinglePassword (userId : Nat) (id : Nat) (st : VaultStore) : GetOneResult :=
  match st.records.find? (fun r => r._id == id && r.user == userId) with
  | none => .notFound
  | some r => .ok r

/-- The partial field map `req.body` accepted by `editPassword`; `none` means the
key is absent from the update document. The `user` key is representable because
the controller passes the body to `$set` unfiltered. -/
structure Updates where
  user : Option Nat
  websiteName : Option String
  url : Option String
  username : Option EncUsername
  password : Option EncPassword
  passwordStrength : Option Nat
deriving DecidableEq, Repr

/-- The empty update document. -/
def Updates.empty : Updates :=
  { user := none, websiteName := none, url := none, username := none,
    password := none, passwordStrength := none }

/-- Mongo `$set` semantics: each present key overwrites the field; the store
refreshes `updatedAt`. -/
def applySet (u : Updates) (now : Nat) (r : PasswordRecord) : PasswordRecord :=
  { r with
    user := u.user.getD r.user
    websiteName := u.websiteName.getD r.websiteName
    url := u.url.getD r.url
    username := u.username.getD r.username
    password := u.password.getD r.password
    passwordStrength := u.passwordStrength.getD r.passwordStrength
    updatedAt := now }

/-- `findOneAndUpdate(filter, { $set: updates }, { new: true })`: updates the first
record matching the filter and returns the updated document. -/
def findOneAndUpdate (userId : Nat) (passwordId : Nat) (u : Updates) (now : Nat) :
    List PasswordRecord → Option PasswordRecord × List PasswordRecord
  | [] => (none, [])
  | r :: rest =>
    if r._id == passwordId && r.user == userId then
      (some (applySet u now r), applySet u now r :: rest)
    else
      let out := findOneAndUpdate userId passwordId u now rest
      (out.1, r :: out.2)

/-- Outcome of `editPassword`. -/
inductive EditResult where
  | notFound
  | ok (data : PasswordRecord)
deriving DecidableEq, Repr

/-- `editPassword`: `findOneAndUpdate({ _id: passwordId, user: userId },
{ $set: updates }, { new: true })`; 404 when no record matches. -/
def editPassword (userId : Nat) (passwordId : Nat) (u : Updates) (now : Nat)
    (st : VaultStore) : EditResult × VaultStore :=
  match findOneAndUpdate userId passwordId u now st.records with
  | (none, _) => (.notFound, st)
  | (some r, recs) => (.ok r, { st with records := recs })

/-- Outcome of `deleteSinglePassword`. -/
inductive DeleteOneResult where
  | invalidInput
  | notFound
  | ok
deriving DecidableEq, Repr

/-- `deleteSinglePassword`: requires a password id, then
`deleteOne({ _id: passwordId, user: userId })`; 404 when `deletedCount` is 0. -/
def deleteSinglePassword (userId : Nat) (passwordId : Option Nat) (st : VaultStore) :
    DeleteOneResult × VaultStore :=
  match passwordId with
  | none => (.invalidInput, st)
  | some pid =>
    if st.records.length -
        (st.records.filter (fun r => !(r._id == pid && r.user == userId))).length == 0 then
      (.notFound, st)
    else
      (.ok, { st with
        records := st.records.filter (fun r => !(r._id == pid && r.user == userId)) })

/-- Outcome of `deleteMultiplePasswords`. -/
inductive DeleteManyResult where
  | invalidInput
  | notFound
  | ok (deletedCount : Nat)
deriving DecidableEq, Repr

/-- The filter of `deleteMany`: `{ _id: { $in: passwordIds }, user: userId }`. -/
def deleteManyFilter (userId : Nat) (passwordIds : List Nat) (r : PasswordRecord) : Bool :=
  passwordIds.contains r._id && r.user == userId

/-- `deleteMultiplePasswords`: rejects an empty id array with 400, then
`deleteMany({ _id: { $in: passwordIds }, user: userId })`; 404 when nothing was
deleted, otherwise answers with the deleted count. -/
def deleteMultiplePasswords (userId : Nat) (passwordIds : List Nat) (st : VaultStore) :
    DeleteManyResult × VaultStore :=
  if passwordIds.isEmpty then (.invalidInput, st)
  else if (st.records.filter (deleteManyFilter userId passwordIds)).length == 0 then
    (.notFound, st)
  else
    (.ok (st.records.filter (deleteManyFilter userId passwordIds)).length,
     { st with records := st.records.filter (fun r => !(deleteManyFilter userId passwordIds r)) })

/-! ## List (getPassword): query parsing, pagination, projection -/

/-- Longest leading decimal-digit prefix of a character list, `none` when empty.
Part of the JavaScript `parseInt` semantics used on `req.query` values. -/
def digitsPrefix (cs : List Char) : Option Nat :=
  let ds := cs.takeWhile Char.isDigit
  if ds.isEmpty then none
  else some (ds.foldl (fun a c => a * 10 + (c.toNat - 48)) 0)

/-- JavaScript `parseInt(s)` on a decimal string: skip leading whitespace, accept
an optional sign, read the longest digit prefix, ignore trailing characters;
`none` models `NaN`. -/
def parseIntJS (s : String) : Option Int :=
  match s.toList.dropWhile Char.isWhitespace with
  | '-' :: rest => (digitsPrefix rest).map (fun n => -(n : Int))
  | '+' :: rest => (digitsPrefix rest).map (fun n => (n : Int))
  | rest => (digitsPrefix rest).map (fun n => (n : Int))

/-- JavaScript `x || d` applied to a `parseInt` result: `NaN` (here `none`) and
`0` are falsy and give the default, everything else passes through. -/
def jsOr (v : Option Int) (d : Int) : Int :=
  match v with
  | none => d
  | some n => if n == 0 then d else n

/-- `const page = parseInt(req.query.page as string) || 1` — an absent query
parameter reads as `undefined`, whose `parseInt` is `NaN`. -/
def parsePageParam (q : Option String) : Int :=
  jsOr (q.bind parseIntJS) 1

/-- `const limit = parseInt(req.query.limit as string) || 10`. -/
def parseLimitParam (q : Option String) : Int :=
  jsOr (q.bind parseIntJS) 10

/-- Boolean infix test on character lists: does `needle` occur contiguously? -/
def charsInfix (needle : List Char) : List Char → Bool
  | [] => needle.isEmpty
  | c :: rest => needle.isPrefixOf (c :: rest) || charsInfix needle rest

/-- Lowercasing of a string as its character list. -/
def lowerChars (s : String) : List Char :=
  s.toList.map Char.toLower

/-- Case-insensitive substring match of a search term against a field value. -/
def searchMatches (term : String) (value : String) : Bool :=
  charsInfix (lowerChars term) (lowerChars value)

/-- Pagination metadata returned alongside a page of records. -/
structure PageInfo where
  page : Int
  limit : Int
  totalCount : Nat
  totalPages : Nat
deriving DecidableEq, Repr

/-- Modelled from the spec: the `paginate` helper (src/utils/pagination.ts) is not
part of the analysed sources; per section 4.1 `findManyOwned` filters by the base
filter, matches `searchTerm` (when present) as a case-insensitive substring
against each search field (OR across fields), keeps insertion order, clamps page
and limit to at least 1, and returns the page slice plus pagination metadata.
`matchedRecords` is the filter stage: the base filter, then the optional
case-insensitive substring search over the search fields. -/
def matchedRecords (records : List PasswordRecord) (baseFilter : PasswordRecord → Bool)
    (searchTerms : Option String) (searchFields : List (PasswordRecord → String)) :
    List PasswordRecord :=
  match searchTerms with
  | none => records.filter baseFilter
  | some t =>
    (records.filter baseFilter).filter
      (fun r => searchFields.any (fun f => searchMatches t (f r)))

/-- Modelled from the spec: the page slice of the matched records in insertion
order, with page and limit clamped to at least 1, plus the pagination metadata
of section 4.1. -/
def paginate (records : List PasswordRecord) (baseFilter : PasswordRecord → Bool)
    (searchTerms : Option String) (searchFields : List (PasswordRecord → String))
    (page limit : Int) : List PasswordRecord × PageInfo :=
  (((matchedRecords records baseFilter searchTerms searchFields).drop
      ((max page 1 - 1).toNat * (max limit 1).toNat)).take (max limit 1).toNat,
   { page := max page 1
     limit := max limit 1
     totalCount := (matchedRecords records baseFilter searchTerms searchFields).length
     totalPages :=
       ((matchedRecords records baseFilter searchTerms searchFields).length +
         (max limit 1).toNat - 1) / (max limit 1).toNat })

/-- The per-record projection built by `getPassword` for the response payload:
exactly the keys of the object literal at lines 83-94 of the controller. The four
flat `...Iv` keys read properties the stored record does not carry (the record
keeps its ivs inside the `username`/`password` pairs), so they are `undefined`,
embedded as `none`. -/
structure ClientRecord where
  id : Nat
  websiteName : String
  url : String
  username : EncUsername
  password : EncPassword
  passwordStrength : Nat
  websiteNameIv : Option String
  urlIv : Option String
  usernameIv : Option String
  passwordIv : Option String
deriving DecidableEq, Repr

/-- The map body sending a stored record to its `getPassword` payload entry. -/
def toClient (r : PasswordRecord) : ClientRecord :=
  { id := r._id
    websiteName := r.websiteName
    url := r.url
    username := r.username
    password := r.password
    passwordStrength := r.passwordStrength
    websiteNameIv := none
    urlIv := none
    usernameIv := none
    passwordIv := none }

/-- Outcome of `getPassword`. -/
inductive ListResult where
  | notFound
  | ok (pageInfo : PageInfo) (data : List ClientRecord)
deriving DecidableEq, Repr

/-- The paginate call issued by `getPassword`: base filter `{ user: userId }`,
search fields `["websiteName"]`. -/
def listPage (userId : Nat) (querySearch : Option String) (page limit : Int)
    (st : VaultStore) : List PasswordRecord × PageInfo :=
  paginate st.records (fun r => r.user == userId) querySearch
    [fun r => r.websiteName] page limit

/-- `getPassword`: parses `page`/`limit` from the query, paginates the records of
`{ user: userId }` with search restricted to `websiteName`, answers 404 on an
empty page, otherwise returns the projected records plus the page info. -/
def getPassword (userId : Nat) (queryPage queryLimit querySearch : Option String)
    (st : VaultStore) : ListResult :=
  if (listPage userId querySearch (parsePageParam queryPage)
      (parseLimitParam queryLimit) st).1.isEmpty then .notFound
  else
    .ok (listPage userId querySearch (parsePageParam queryPage)
        (parseLimitParam queryLimit) st).2
      ((listPage userId querySearch (parsePageParam queryPage)
        (parseLimitParam queryLimit) st).1.map toClient)

/-! ## Two concurrent Add calls: interleaving model

`addPassword` is two store accesses — the `findOne` duplicate check and the
`create` — so a run of two concurrent Adds is an interleaving of those four
steps over the shared store. -/

/-- The phase of one in-flight `addPassword` invocation: before its duplicate
check, after the check (remembering what it saw), or finished with an outcome. -/
inductive ProcPhase where
  | start
  | checked (found : Bool)
  | done (result : AddResult)
deriving DecidableEq, Repr

/-- One step of an in-flight `addPassword` against the shared store: the check
reads the store; the action either answers conflict or runs the store create. -/
def procStep (userId : Nat) (b : AddBody) (now : Nat) (ph : ProcPhase)
    (st : VaultStore) : ProcPhase × VaultStore :=
  match ph with
  | .start => (.checked (st.records.any (dupFilter userId b)), st)
  | .checked true => (.done .conflict, st)
  | .checked false =>
    match PasswordModel_create userId b now st with
    | .error msg => (.done (.internalFailure msg), st)
    | .ok (_, st') => (.done .created, st')
  | .done r => (.done r, st)

/-- Shared state of two racing `addPassword` calls. -/
structure RaceState where
  store : VaultStore
  p1 : ProcPhase
  p2 : ProcPhase
deriving DecidableEq, Repr

/-- Both callers about to run their duplicate check over the shared store. -/
def raceInit (st : VaultStore) : RaceState :=
  { store := st, p1 := .start, p2 := .start }

/-- Scheduler step: `true` advances the first caller, `false` the second. -/
def raceStep (userId : Nat) (b : AddBody) (now : Nat) (s : RaceState) (which : Bool) :
    RaceState :=
  if which then
    let out := procStep userId b now s.p1 s.store
    { s with p1 := out.1, store := out.2 }
  else
    let out := procStep userId b now s.p2 s.store
    { s with p2 := out.1, store := out.2 }

/-- Run a schedule of steps over the race state. -/
def runRace (userId : Nat) (b : AddBody) (now : Nat) (sched : List Bool)
    (s : RaceState) : RaceState :=
  sched.foldl (raceStep userId b now) s

/-- The six complete interleavings of the two two-step callers. -/
def allInterleavings : List (List Bool) :=
  [[true, true, false, false], [true, false, true, false], [true, false, false, true],
   [false, true, true, false], [false, true, false, true], [false, false, true, true]]

/-! ## Sample values used by concrete witnesses -/

/-- A sample request body. -/
def sampleBody : AddBody :=
  { websiteName := "GitHub", websiteUrl := "https://github.com", username := "encU",
    password := "encP", usernameIv := "ivU", passwordIv := "ivP", passwordStrength := 3 }

/-- The same site with the website name in different letter case. -/
def sampleBodyLower : AddBody :=
  { sampleBody with websiteName := "github" }

/-- The empty store. -/
def emptyStore : VaultStore := { records := [], nextId := 0 }

/-- The record `addPassword` creates for owner 1 from `sampleBody`. -/
def sampleRecord : PasswordRecord := newRecord 1 sampleBody 5 0

/-- A record of the second owner. -/
def sampleRecordB : PasswordRecord :=
  { newRecord 2 sampleBody 5 1 with websiteName := "Mail", url := "https://mail.example" }

/-- A one-record store owned by account 1. -/
def sampleStore : VaultStore := { records := [sampleRecord], nextId := 1 }

/-- A store holding one record of owner 1 and one record of owner 2. -/
def mixedStore : VaultStore := { records := [sampleRecord, sampleRecordB], nextId := 2 }

/-! ## Helper lemmas -/

theorem dupFilter_eq_true_iff (userId : Nat) (b : AddBody) (r : PasswordRecord) :
    dupFilter userId b r = true ↔
      r.user = userId ∧ r.websiteName = b.websiteName ∧ r.url = b.websiteUrl := by
  simp [dupFilter, Bool.and_eq_true, and_assoc]

theorem dupFilter_newRecord (userId : Nat) (b : AddBody) (now id : Nat) :
    dupFilter userId b (newRecord userId b now id) = true := by
  simp [dupFilter, newRecord]

theorem addPassword_no_dup (userId : Nat) (b : AddBody) (now : Nat) (st : VaultStore)
    (hnodup : ∀ r ∈ st.records, dupFilter userId b r = false) :
    addPassword userId b now st =
      (.created, { records := st.records ++ [newRecord userId b now st.nextId],
                   nextId := st.nextId + 1 }) := by
  have hf : st.records.find? (dupFilter userId b) = none :=
    List.find?_eq_none.mpr (fun x hx => by simp [hnodup x hx])
  have ha : st.records.any (dupFilter userId b) = false :=
    List.any_eq_false.mpr (fun x hx => by simp [hnodup x hx])
  simp [addPassword, PasswordModel_create, hf, ha]

/-! ## Claims -/

/-- C2: adding a record whose `(ownerId, websiteName, url)` tuple already exists
for the same owner returns the `Conflict` outcome (the 400 response, not a thrown
error) and leaves the store completely unchanged. -/
theorem addPassword_duplicate_conflict (userId : Nat) (b : AddBody) (now : Nat)
    (st : VaultStore)
    (hdup : ∃ r ∈ st.records,
      r.user = userId ∧ r.websiteName = b.websiteName ∧ r.url = b.websiteUrl) :
    addPassword userId b now st = (.conflict, st) := by
  obtain ⟨r, hr, h1, h2, h3⟩ := hdup
  unfold addPassword
  cases hfind : st.records.find? (dupFilter userId b) with
  | some _ => rfl
  | none =>
    exact absurd ((dupFilter_eq_true_iff userId b r).mpr ⟨h1, h2, h3⟩)
      (by simpa using List.find?_eq_none.mp hfind r hr)

/-- Witness for C2 at a concrete store already holding the tuple. -/
theorem addPassword_duplicate_conflict_witness :
    addPassword 1 sampleBody 7 sampleStore = (.conflict, sampleStore) :=
  addPassword_duplicate_conflict 1 sampleBody 7 sampleStore
    ⟨sampleRecord, by simp [sampleStore], by decide⟩

/-- C9: the duplicate check compares `websiteName` and `url` by exact string
equality: two Adds whose `(websiteName, url)` differ in any character (letter
case included) both succeed, and the store grows by two records — no
normalization precedes the uniqueness check. -/
theorem addPassword_exact_match_only (userId : Nat) (b1 b2 : AddBody)
    (now1 now2 : Nat) (st : VaultStore)
    (hne : b1.websiteName ≠ b2.websiteName ∨ b1.websiteUrl ≠ b2.websiteUrl)
    (h1 : ∀ r ∈ st.records, dupFilter userId b1 r = false)
    (h2 : ∀ r ∈ st.records, dupFilter userId b2 r = false) :
    (addPassword userId b1 now1 st).1 = .created ∧
    (addPassword userId b2 now2 (addPassword userId b1 now1 st).2).1 = .created ∧
    (addPassword userId b2 now2 (addPassword userId b1 now1 st).2).2.records.length =
      st.records.length + 2 := by
  rw [addPassword_no_dup userId b1 now1 st h1]
  have hnew : dupFilter userId b2 (newRecord userId b1 now1 st.nextId) = false := by
    rcases hne with h | h <;> simp [dupFilter, newRecord, h]
  have h2' : ∀ r ∈ st.records ++ [newRecord userId b1 now1 st.nextId],
      dupFilter userId b2 r = false := by
    intro r hr
    rcases List.mem_append.mp hr with h | h
    · exact h2 r h
    · rcases List.mem_singleton.mp h with rfl
      exact hnew
  rw [addPassword_no_dup userId b2 now2 _ (by simpa using h2')]
  simp

/-- Witness for C9: the same site added with `GitHub` and then `github` creates
two records. -/
theorem addPassword_exact_match_only_witness :
    (addPassword 1 sampleBody 5 emptyStore).1 = .created ∧
    (addPassword 1 sampleBodyLower 6 (addPassword 1 sampleBody 5 emptyStore).2).1 =
      .created ∧
    (addPassword 1 sampleBodyLower 6
      (addPassword 1 sampleBody 5 emptyStore).2).2.records.length =
      emptyStore.records.length + 2 :=
  addPassword_exact_match_only 1 sampleBody sampleBodyLower 5 6 emptyStore
    (Or.inl (by decide)) (by intro r hr; simp [emptyStore] at hr)
    (by intro r hr; simp [emptyStore] at hr)

/-- C4: round-trip — after a successful Add, GetOne by the same owner on the
created identifier returns a record whose `username`/`password` cipher+iv pairs
are exactly the pairs supplied to Add, untransformed. -/
theorem add_then_getOne_roundtrip (userId : Nat) (b : AddBody) (now : Nat)
    (st : VaultStore)
    (hnodup : ∀ r ∈ st.records, dupFilter userId b r = false)
    (hfresh : ∀ r ∈ st.records, r._id ≠ st.nextId) :
    (addPassword userId b now st).1 = .created ∧
    ∃ rec, getSinglePassword userId st.nextId (addPassword userId b now st).2 = .ok rec ∧
      rec.username.encUsername = b.username ∧ rec.username.iv = b.usernameIv ∧
      rec.password.encPassword = b.password ∧ rec.password.iv = b.passwordIv := by
  rw [addPassword_no_dup userId b now st hnodup]
  refine ⟨rfl, newRecord userId b now st.nextId, ?_, rfl, rfl, rfl, rfl⟩
  have hnone : st.records.find?
      (fun r => r._id == st.nextId && r.user == userId) = none :=
    List.find?_eq_none.mpr (fun r hr => by simp [hfresh r hr])
  have hsome : (st.records ++ [newRecord userId b now st.nextId]).find?
      (fun r => r._id == st.nextId && r.user == userId) =
      some (newRecord userId b now st.nextId) := by
    rw [List.find?_append, hnone]
    simp [newRecord]
  simp [getSinglePassword, hsome]

/-- Witness for C4 on the empty store. -/
theorem add_then_getOne_roundtrip_witness :
    (addPassword 1 sampleBody 5 emptyStore).1 = .created ∧
    ∃ rec, getSinglePassword 1 emptyStore.nextId
        (addPassword 1 sampleBody 5 emptyStore).2 = .ok rec ∧
      rec.username.encUsername = sampleBody.username ∧
      rec.username.iv = sampleBody.usernameIv ∧
      rec.password.encPassword = sampleBody.password ∧
      rec.password.iv = sampleBody.passwordIv :=
  add_then_getOne_roundtrip 1 sampleBody 5 emptyStore
    (by intro r hr; simp [emptyStore] at hr)
    (by intro r hr; simp [emptyStore] at hr)

/-- C7 counterexample: the controller computes `parseInt(q) || d`, which only
replaces `NaN` and `0`; a negative query value such as `page=-3` is passed
onward as `-3`, below the claimed lower bound of 1. -/
theorem listParams_negative_not_clamped :
    parsePageParam (some "-3") = -3 ∧ ¬(1 ≤ parsePageParam (some "-3")) ∧
    parseLimitParam (some "-2") = -2 ∧ ¬(1 ≤ parseLimitParam (some "-2")) := by
  decide

/-- C7 amended: `page`/`limit` default to 1/10 when the parameter is unset,
non-numeric, or parses to 0 (the falsy cases of `||`); every other parsed value,
negative values included, is passed onward unchanged — no clamping to 1 happens
in the controller. -/
theorem listParams_defaults (q : Option String) :
    (q.bind parseIntJS = none → parsePageParam q = 1 ∧ parseLimitParam q = 10) ∧
    (q.bind parseIntJS = some 0 → parsePageParam q = 1 ∧ parseLimitParam q = 10) ∧
    (∀ n : Int, q.bind parseIntJS = some n → n ≠ 0 →
      parsePageParam q = n ∧ parseLimitParam q = n) := by
  refine ⟨fun h => ?_, fun h => ?_, fun n h hn => ?_⟩
  · simp [parsePageParam, parseLimitParam, jsOr, h]
  · simp [parsePageParam, parseLimitParam, jsOr, h]
  · simp [parsePageParam, parseLimitParam, jsOr, h, hn]

/-- Witness for the amended C7: the parameter string `5` parses and passes
through, and an absent parameter takes the defaults. -/
theorem listParams_defaults_witness :
    (parsePageParam (some "5") = 5 ∧ parseLimitParam (some "5") = 5) ∧
    (parsePageParam none = 1 ∧ parseLimitParam none = 10) :=
  ⟨(listParams_defaults (some "5")).2.2 5 (by decide) (by decide),
   (listParams_defaults none).1 rfl⟩

/-- The update document `{ user: 2 }`. -/
def ownerChangeUpdates : Updates := { Updates.empty with user := some 2 }

/-- C3 counterexample: `editPassword` passes the request body to `$set`
unfiltered, so an update document carrying the `user` key rewrites the owner:
editing the record of owner 1 with `{ user: 2 }` leaves the store with the
record owned by 2. -/
theorem edit_changes_owner_counterexample :
    (sampleStore.records.map fun r => r.user) = [1] ∧
    (((editPassword 1 0 ownerChangeUpdates 9 sampleStore).2.records.map
      fun r => r.user) = [2]) ∧
    (editPassword 1 0 ownerChangeUpdates 9 sampleStore).1 ≠ .notFound := by
  decide

theorem findOneAndUpdate_map_user (userId pid : Nat) (u : Updates) (now : Nat)
    (hu : u.user = none) :
    ∀ l : List PasswordRecord,
      ((findOneAndUpdate userId pid u now l).2.map fun r => r.user) =
        l.map fun r => r.user := by
  intro l
  induction l with
  | nil => rfl
  | cons r rest ih =>
    by_cases h : (r._id == pid && r.user == userId) = true
    · simp [findOneAndUpdate, h, applySet, hu]
    · simp [findOneAndUpdate, h, ih]

/-- C3 amended: the record identifier is never changed by Edit, and the owner is
preserved by every Edit whose update document does not itself carry the `user`
key; an update document that does carry `user` rewrites the owner (no
immutability guard exists in the controller). -/
theorem edit_preserves_owner_without_user_key (userId pid : Nat) (u : Updates)
    (now : Nat) (st : VaultStore) (hu : u.user = none) :
    ((editPassword userId pid u now st).2.records.map fun r => r.user) =
      st.records.map fun r => r.user := by
  unfold editPassword
  cases hfu : findOneAndUpdate userId pid u now st.records with
  | mk fst snd =>
    cases fst with
    | none => rfl
    | some r' =>
      have := findOneAndUpdate_map_user userId pid u now hu st.records
      rw [hfu] at this
      simpa using this

/-- Witness for the amended C3: an edit of the website name leaves the owner
list of the store untouched. -/
theorem edit_preserves_owner_without_user_key_witness :
    ((editPassword 1 0 { Updates.empty with websiteName := some "Gitlab" } 9
        sampleStore).2.records.map fun r => r.user) =
      sampleStore.records.map fun r => r.user :=
  edit_preserves_owner_without_user_key 1 0
    { Updates.empty with websiteName := some "Gitlab" } 9 sampleStore rfl

/-- C5: when the id set is non-empty and contains the id of at least one owned
record, DeleteMany deletes exactly the owned records whose id is in the set —
ids of other owners or of nobody are silently skipped — and answers with the
count of records actually deleted. -/
theorem deleteMany_owned_only (userId : Nat) (ids : List Nat) (st : VaultStore)
    (hne : ids ≠ [])
    (howned : ∃ r ∈ st.records, ids.contains r._id = true ∧ r.user = userId) :
    (deleteMultiplePasswords userId ids st).1 =
      .ok ((st.records.filter fun r => ids.contains r._id && r.user == userId).length) ∧
    ∀ r : PasswordRecord,
      (r ∈ (deleteMultiplePasswords userId ids st).2.records ↔
        r ∈ st.records ∧ ¬(ids.contains r._id = true ∧ r.user = userId)) := by
  obtain ⟨r0, hr0, hid0, hu0⟩ := howned
  have hne' : ids.isEmpty = false := by
    cases ids with
    | nil => exact absurd rfl hne
    | cons a l => rfl
  have hmem0 : r0 ∈ st.records.filter (deleteManyFilter userId ids) :=
    List.mem_filter.mpr ⟨hr0, by unfold deleteManyFilter; rw [hid0, hu0]; simp⟩
  have hlen : ((st.records.filter (deleteManyFilter userId ids)).length == 0) = false := by
    cases hf : st.records.filter (deleteManyFilter userId ids) with
    | nil => rw [hf] at hmem0; simp at hmem0
    | cons a l => rfl
  have heq : deleteMultiplePasswords userId ids st =
      (.ok ((st.records.filter (deleteManyFilter userId ids)).length),
       { st with records := st.records.filter fun r => !(deleteManyFilter userId ids r) }) := by
    unfold deleteMultiplePasswords
    rw [hne']
    simp only [hlen, Bool.false_eq_true, if_false]
  rw [heq]
  constructor
  · rfl
  · intro r
    simp only [List.mem_filter]
    simp [deleteManyFilter, Bool.and_eq_true, not_and]
    tauto

/-- Witness for C5: owner 1 asks to delete the owned record 0, the foreign
record 1 and the absent record 7; exactly one record goes, record 1 stays. -/
theorem deleteMany_owned_only_witness :
    (deleteMultiplePasswords 1 [0, 1, 7] mixedStore).1 =
      .ok ((mixedStore.records.filter
        fun r => List.contains [0, 1, 7] r._id && r.user == 1).length) ∧
    ∀ r : PasswordRecord,
      (r ∈ (deleteMultiplePasswords 1 [0, 1, 7] mixedStore).2.records ↔
        r ∈ mixedStore.records ∧ ¬(List.contains [0, 1, 7] r._id = true ∧ r.user = 1)) :=
  deleteMany_owned_only 1 [0, 1, 7] mixedStore (by decide)
    ⟨sampleRecord, by simp [mixedStore], by decide, by decide⟩

theorem mem_matchedRecords (records : List PasswordRecord)
    (baseFilter : PasswordRecord → Bool) (searchTerms : Option String)
    (searchFields : List (PasswordRecord → String)) (r : PasswordRecord)
    (hr : r ∈ matchedRecords records baseFilter searchTerms searchFields) :
    r ∈ records ∧ baseFilter r = true := by
  cases searchTerms with
  | none => exact List.mem_filter.mp hr
  | some t => exact List.mem_filter.mp (List.mem_filter.mp hr).1

theorem paginate_mem (records : List PasswordRecord)
    (baseFilter : PasswordRecord → Bool) (searchTerms : Option String)
    (searchFields : List (PasswordRecord → String)) (page limit : Int)
    (r : PasswordRecord)
    (hr : r ∈ (paginate records baseFilter searchTerms searchFields page limit).1) :
    r ∈ records ∧ baseFilter r = true :=
  mem_matchedRecords records baseFilter searchTerms searchFields r
    (List.mem_of_mem_drop (List.mem_of_mem_take hr))

theorem getPassword_ok_sound (userId : Nat) (qp ql qs : Option String)
    (st : VaultStore) (info : PageInfo) (data : List ClientRecord)
    (hok : getPassword userId qp ql qs st = .ok info data) :
    ∀ c ∈ data, ∃ r ∈ st.records, r.user = userId ∧ c = toClient r := by
  unfold getPassword at hok
  split at hok
  · simp at hok
  · injection hok with hinfo hdata
    intro c hc
    rw [← hdata] at hc
    obtain ⟨r, hr, hrc⟩ := List.mem_map.mp hc
    have := paginate_mem st.records (fun x => x.user == userId) qs
      [fun x => x.websiteName] (parsePageParam qp) (parseLimitParam ql) r hr
    exact ⟨r, this.1, by simpa using this.2, hrc.symm⟩

/-- C6: a List whose result page is empty answers 404 — a successful outcome
never carries an empty page, and in particular, when the search term is a
case-insensitive substring of no owned record's `websiteName`, the outcome is
`NotFound`. -/
theorem list_no_match_notFound (userId : Nat) (qp ql : Option String) (t : String)
    (st : VaultStore)
    (hnomatch : ∀ r ∈ st.records, r.user = userId →
      searchMatches t r.websiteName = false) :
    getPassword userId qp ql (some t) st = .notFound ∧
    ∀ (qs : Option String) (info : PageInfo) (data : List ClientRecord),
      getPassword userId qp ql qs st = .ok info data → data ≠ [] := by
  constructor
  · have hmatched : matchedRecords st.records (fun r => r.user == userId) (some t)
        [fun r => r.websiteName] = [] := by
      apply List.filter_eq_nil_iff.mpr
      intro r hr
      obtain ⟨hmem, hu⟩ := List.mem_filter.mp hr
      simp [hnomatch r hmem (by simpa using hu)]
    unfold getPassword listPage paginate
    rw [hmatched]
    simp
  · intro qs info data hok
    unfold getPassword at hok
    split at hok
    · simp at hok
    · rename_i hne
      injection hok with hinfo hdata
      rw [← hdata]
      simp only [ne_eq, List.map_eq_nil_iff]
      exact fun hnil => hne (by rw [hnil]; rfl)

/-- Witness for C6: owner 1 searches for a term occurring in no website name. -/
theorem list_no_match_notFound_witness :
    getPassword 1 none none (some "zzz") sampleStore = .notFound ∧
    ∀ (qs : Option String) (info : PageInfo) (data : List ClientRecord),
      getPassword 1 none none qs sampleStore = .ok info data → data ≠ [] :=
  list_no_match_notFound 1 none none "zzz" sampleStore (by decide)

/-- C10: every entry of a successful List payload is the projection of a stored
record of the requesting owner to exactly the keys
`id, websiteName, url, username, password, passwordStrength, websiteNameIv,
urlIv, usernameIv, passwordIv`; the projection is invariant under the owner
identifier and the timestamps, which therefore never reach the payload. -/
theorem list_payload_projection (userId : Nat) (qp ql qs : Option String)
    (st : VaultStore) (info : PageInfo) (data : List ClientRecord)
    (hok : getPassword userId qp ql qs st = .ok info data) :
    (∀ c ∈ data, ∃ r ∈ st.records, r.user = userId ∧ c = toClient r) ∧
    (∀ (r : PasswordRecord) (owner t1 t2 : Nat),
      toClient { r with user := owner, createdAt := t1, updatedAt := t2 } =
        toClient r) :=
  ⟨getPassword_ok_sound userId qp ql qs st info data hok, fun _ _ _ _ => rfl⟩

/-- Witness for C10 on a concrete one-record store. -/
theorem list_payload_projection_witness :
    (∀ c ∈ [toClient sampleRecord], ∃ r ∈ sampleStore.records,
      r.user = 1 ∧ c = toClient r) ∧
    (∀ (r : PasswordRecord) (owner t1 t2 : Nat),
      toClient { r with user := owner, createdAt := t1, updatedAt := t2 } =
        toClient r) :=
  list_payload_projection 1 none none none sampleStore
    { page := 1, limit := 10, totalCount := 1, totalPages := 1 }
    [toClient sampleRecord] (by decide)

theorem findOneAndUpdate_preserves (userId pid : Nat) (u : Updates) (now : Nat) :
    ∀ (l : List PasswordRecord) (r : PasswordRecord), r ∈ l →
      (r._id == pid && r.user == userId) = false →
      r ∈ (findOneAndUpdate userId pid u now l).2 := by
  intro l
  induction l with
  | nil => intro r hr _; simp at hr
  | cons a rest ih =>
    intro r hr hf
    by_cases h : (a._id == pid && a.user == userId) = true
    · simp only [findOneAndUpdate, h, if_true]
      rcases List.mem_cons.mp hr with rfl | hr'
      · exact absurd h (by simp [hf])
      · exact List.mem_cons_of_mem _ hr'
    · simp only [findOneAndUpdate, h, Bool.false_eq_true, if_false]
      rcases List.mem_cons.mp hr with rfl | hr'
      · exact List.mem_cons_self r _
      · exact List.mem_cons_of_mem _ (ih r hr' hf)

theorem findOneAndUpdate_some (userId pid : Nat) (u : Updates) (now : Nat) :
    ∀ (l : List PasswordRecord) (r' : PasswordRecord),
      (findOneAndUpdate userId pid u now l).1 = some r' →
      ∃ pre ∈ l, (pre._id == pid && pre.user == userId) = true ∧
        r' = applySet u now pre := by
  intro l
  induction l with
  | nil => intro r' h; simp [findOneAndUpdate] at h
  | cons a rest ih =>
    intro r' h
    by_cases hc : (a._id == pid && a.user == userId) = true
    · rw [findOneAndUpdate, if_pos hc] at h
      exact ⟨a, List.mem_cons_self a rest, hc, (Option.some_inj.mp h).symm⟩
    · rw [findOneAndUpdate, if_neg hc] at h
      obtain ⟨pre, hpre, hf, he⟩ := ih r' h
      exact ⟨pre, List.mem_cons_of_mem a hpre, hf, he⟩

/-- C1: operations invoked with owner A neither return, nor mutate, nor delete a
record owned by the distinct account B — GetOne only returns records of A; Edit
leaves every record of B in place and only ever returns the update of a record
of A; DeleteOne and DeleteMany leave every record of B in place; every List
payload entry is the projection of a record of A. Every store query carries the
requesting owner as a filter condition. -/
theorem ownership_enforced (A B : Nat) (hAB : A ≠ B) (st : VaultStore)
    (r : PasswordRecord) (hmem : r ∈ st.records) (hB : r.user = B) :
    (∀ (id : Nat) (r' : PasswordRecord),
      getSinglePassword A id st = .ok r' → r'.user = A) ∧
    (∀ (pid : Nat) (u : Updates) (now : Nat),
      r ∈ (editPassword A pid u now st).2.records) ∧
    (∀ (pid : Nat) (u : Updates) (now : Nat) (r' : PasswordRecord),
      (editPassword A pid u now st).1 = .ok r' →
      ∃ pre ∈ st.records, pre.user = A ∧ r' = applySet u now pre) ∧
    (∀ pid : Option Nat, r ∈ (deleteSinglePassword A pid st).2.records) ∧
    (∀ ids : List Nat, r ∈ (deleteMultiplePasswords A ids st).2.records) ∧
    (∀ (qp ql qs : Option String) (info : PageInfo) (data : List ClientRecord),
      getPassword A qp ql qs st = .ok info data →
      ∀ c ∈ data, ∃ pre ∈ st.records, pre.user = A ∧ c = toClient pre) := by
  have hrA : r.user ≠ A := by rw [hB]; exact fun h => hAB h.symm
  have hbeq : (r.user == A) = false := by simp [hrA]
  refine ⟨?_, ?_, ?_, ?_, ?_, ?_⟩
  · intro id r' h
    unfold getSinglePassword at h
    cases hf : st.records.find? (fun x => x._id == id && x.user == A) with
    | none => rw [hf] at h; simp at h
    | some x =>
      rw [hf] at h
      have hx := List.find?_some hf
      injection h with h'
      rw [← h']
      simpa using (Bool.and_eq_true _ _ |>.mp hx).2
  · intro pid u now
    unfold editPassword
    cases hfu : findOneAndUpdate A pid u now st.records with
    | mk fst snd =>
      cases fst with
      | none => exact hmem
      | some r' =>
        have hp := findOneAndUpdate_preserves A pid u now st.records r hmem
          (by simp [hbeq])
        rw [hfu] at hp
        exact hp
  · intro pid u now r' hok
    unfold editPassword at hok
    cases hfu : findOneAndUpdate A pid u now st.records with
    | mk fst snd =>
      rw [hfu] at hok
      cases fst with
      | none => simp at hok
      | some x =>
        have hsome := findOneAndUpdate_some A pid u now st.records x (by rw [hfu])
        obtain ⟨pre, hpre, hf, he⟩ := hsome
        injection hok with h'
        exact ⟨pre, hpre, by simpa using (Bool.and_eq_true _ _ |>.mp hf).2,
          by rw [← h', he]⟩
  · intro pid
    cases pid with
    | none => exact hmem
    | some p =>
      unfold deleteSinglePassword
      split
      · exact hmem
      · split
        · exact hmem
        · exact List.mem_filter.mpr ⟨hmem, by simp [hbeq]⟩
  · intro ids
    unfold deleteMultiplePasswords
    split
    · exact hmem
    · split
      · exact hmem
      · exact List.mem_filter.mpr ⟨hmem, by simp [deleteManyFilter, hbeq]⟩
  · intro qp ql qs info data hok
    exact getPassword_ok_sound A qp ql qs st info data hok

/-- Witness for C1: owner 1 edits and bulk-deletes against a store that also
holds the record of owner 2; that record survives both operations. -/
theorem ownership_enforced_witness :
    sampleRecordB ∈ (editPassword 1 1 Updates.empty 9 mixedStore).2.records ∧
    sampleRecordB ∈ (deleteMultiplePasswords 1 [1] mixedStore).2.records :=
  ⟨(ownership_enforced 1 2 (by decide) mixedStore sampleRecordB
      (by simp [mixedStore]) rfl).2.1 1 Updates.empty 9,
   (ownership_enforced 1 2 (by decide) mixedStore sampleRecordB
      (by simp [mixedStore]) rfl).2.2.2.2.1 [1]⟩

/-- C8 counterexample: under the schedule where both duplicate checks run before
either insert, the store (whose uniqueness guarantee is atomic) ends with a
single record, but the second writer's create fails with `DuplicateEntry` and
the controller's catch-all maps it to the 500 internal-failure outcome — not to
the 400 `Conflict` outcome the claim names. -/
theorem race_second_writer_not_conflict :
    (runRace 1 sampleBody 5 [true, false, true, false] (raceInit emptyStore)).p2 =
      .done (.internalFailure "DuplicateEntry") ∧
    (runRace 1 sampleBody 5 [true, false, true, false] (raceInit emptyStore)).p2 ≠
      .done .conflict ∧
    ((runRace 1 sampleBody 5 [true, false, true, false]
        (raceInit emptyStore)).store.records.filter (dupFilter 1 sampleBody)).length
      = 1 := by
  decide

theorem filter_dup_of_nodup (userId : Nat) (b : AddBody) (st : VaultStore)
    (h : st.records.any (dupFilter userId b) = false) :
    st.records.filter (dupFilter userId b) = [] :=
  List.filter_eq_nil_iff.mpr (List.any_eq_false.mp h)

/-- C8 amended: in every interleaving of two concurrent Adds with the same
tuple over a store holding no such tuple, the final store holds exactly one
record with the tuple — never two — and the second writer is rejected: with the
`Conflict` outcome when its duplicate check runs after the other insert, and
with the store's `DuplicateEntry` failure surfaced as the internal-failure
outcome when both checks precede the inserts. -/
theorem race_exactly_one_record (userId : Nat) (b : AddBody) (now : Nat)
    (st : VaultStore) (sched : List Bool) (hsched : sched ∈ allInterleavings)
    (hnodup : st.records.any (dupFilter userId b) = false) :
    ((runRace userId b now sched (raceInit st)).store.records.filter
      (dupFilter userId b)).length = 1 ∧
    (((runRace userId b now sched (raceInit st)).p1 = .done .created ∧
      ((runRace userId b now sched (raceInit st)).p2 = .done .conflict ∨
       (runRace userId b now sched (raceInit st)).p2 =
         .done (.internalFailure "DuplicateEntry"))) ∨
     ((runRace userId b now sched (raceInit st)).p2 = .done .created ∧
      ((runRace userId b now sched (raceInit st)).p1 = .done .conflict ∨
       (runRace userId b now sched (raceInit st)).p1 =
         .done (.internalFailure "DuplicateEntry")))) := by
  have hfil := filter_dup_of_nodup userId b st hnodup
  simp only [allInterleavings, List.mem_cons, List.not_mem_nil, or_false] at hsched
  rcases hsched with rfl | rfl | rfl | rfl | rfl | rfl <;>
    simp [runRace, raceInit, raceStep, procStep, PasswordModel_create, hnodup,
      List.any_append, dupFilter_newRecord, List.filter_append, hfil]

/-- Witness for the amended C8 on the empty store under a sequential schedule. -/
theorem race_exactly_one_record_witness :
    ((runRace 1 sampleBody 5 [true, true, false, false]
        (raceInit emptyStore)).store.records.filter (dupFilter 1 sampleBody)).length
      = 1 ∧
    (((runRace 1 sampleBody 5 [true, true, false, false] (raceInit emptyStore)).p1 =
        .done .created ∧
      ((runRace 1 sampleBody 5 [true, true, false, false] (raceInit emptyStore)).p2 =
        .done .conflict ∨
       (runRace 1 sampleBody 5 [true, true, false, false] (raceInit emptyStore)).p2 =
        .done (.internalFailure "DuplicateEntry"))) ∨
     ((runRace 1 sampleBody 5 [true, true, false, false] (raceInit emptyStore)).p2 =
        .done .created ∧
      ((runRace 1 sampleBody 5 [true, true, false, false] (raceInit emptyStore)).p1 =
        .done .conflict ∨
       (runRace 1 sampleBody 5 [true, true, false, false] (raceInit emptyStore)).p1 =
        .done (.internalFailure "DuplicateEntry")))) :=
  race_exactly_one_record 1 sampleBody 5 emptyStore [true, true, false, false]
    (by decide) rfl

end PassSafe
